import Mathlib

/-!
Verification of the incident-analyzer pipeline (lekce_9/agent/analyzer.py):
aggregation-bucket parsing, summary-statistics derivation, and report
formatting.  Python dictionaries are embedded as insertion-ordered
association lists, integers as Lean Int, exact arithmetic as Rat, and
fallible code as Except.
-/

namespace Analyzer

/-- A dictionary key of an aggregation bucket: OpenSearch delivers integers
for severity levels and strings for every other dimension; the code keeps
them as-is. -/
inductive Key where
  | int : Int → Key
  | str : String → Key
deriving DecidableEq, Repr

/-- Value of a list of decimal digit characters, most significant first. -/
def digitsVal (cs : List Char) : Nat :=
  cs.foldl (fun n c => 10 * n + (c.toNat - 48)) 0

/-- Model of Python int() on a string: an optional sign followed by one or
more decimal digits parses to its value; any other string fails.  (Python
additionally tolerates surrounding whitespace and inner underscores, which
never occur in the upstream data.) -/
def pyIntOfString (s : String) : Option Int :=
  let body : List Char → Option Int := fun cs =>
    if cs ≠ [] ∧ cs.all Char.isDigit = true then some (digitsVal cs) else none
  match s.data with
  | '-' :: rest => (body rest).map (fun n => -n)
  | '+' :: rest => body rest
  | cs => body cs

/-- Model of Python int(k) applied to a bucket key: the identity on an
integer key, decimal parsing on a string key. -/
def pyIntOfKey : Key → Option Int
  | .int n => some n
  | .str s => pyIntOfString s

/-- A Python dict over bucket keys, as an insertion-ordered association
list; construction goes through dictInsert, which keeps keys distinct. -/
abbrev Dict := List (Key × Int)

/-- Python dict assignment d[k] = v: updates an existing key in place
(keeping its position), appends a new key at the end. -/
def dictInsert (d : Dict) (k : Key) (v : Int) : Dict :=
  if d.any (fun p => p.1 = k) then d.map (fun p => if p.1 = k then (k, v) else p)
  else d ++ [(k, v)]

/-- Python d.get(k): value of the first (only) pair with the given key. -/
def dictGet (d : Dict) (k : Key) : Option Int :=
  (d.find? (fun p => p.1 = k)).map Prod.snd

/-- One categorical aggregation bucket, carrying "key" and "doc_count". -/
structure CatBucket where
  key : Key
  doc_count : Int
deriving DecidableEq, Repr

/-- One timeline bucket, carrying "key_as_string" and "doc_count". -/
structure TimeBucket where
  key_as_string : String
  doc_count : Int
deriving DecidableEq, Repr

/-- parse_bucket_aggregation: the dict comprehension over the buckets,
keys kept as-is, duplicate keys last-write-wins. -/
def parse_bucket_aggregation (bucket_data : List CatBucket) : Dict :=
  bucket_data.foldl (fun d b => dictInsert d b.key b.doc_count) []

/-- parse_timeline_aggregation: the resulting DataFrame, embedded as its
ordered list of (date, count) rows. -/
def parse_timeline_aggregation (timeline_data : List TimeBucket) : List (String × Int) :=
  timeline_data.map (fun b => (b.key_as_string, b.doc_count))

/-- A named aggregation section: a JSON object whose "buckets" entry may
itself be absent. -/
structure AggEntry (β : Type) where
  buckets : Option (List β) := none
deriving DecidableEq, Repr

/-- The "aggregations" object of the upstream response; every named
section may be absent. -/
structure AggData where
  by_level : Option (AggEntry CatBucket) := none
  by_region : Option (AggEntry CatBucket) := none
  by_groups : Option (AggEntry CatBucket) := none
  by_agent : Option (AggEntry CatBucket) := none
  by_decoder : Option (AggEntry CatBucket) := none
  by_srcip : Option (AggEntry CatBucket) := none
  timeline : Option (AggEntry TimeBucket) := none
deriving DecidableEq, Repr

/-- Model of agg_data.get(name, emptyDict).get("buckets", emptyList): both
levels of absence default, so a missing section yields no buckets. -/
def getBuckets {β : Type} (e : Option (AggEntry β)) : List β :=
  match e with
  | none => []
  | some s => s.buckets.getD []

/-- The parsed aggregation set returned by parse_aggregations. -/
structure ParsedAggs where
  severity : Dict
  regions : Dict
  types : Dict
  agents : Dict
  decoders : Dict
  srcips : Dict
  timeline : List (String × Int)
deriving DecidableEq, Repr

/-- parse_aggregations: each categorical section through
parse_bucket_aggregation, the timeline through parse_timeline_aggregation,
absent sections defaulting to empty bucket lists. -/
def parse_aggregations (agg_data : AggData) : ParsedAggs :=
  { severity := parse_bucket_aggregation (getBuckets agg_data.by_level)
    regions := parse_bucket_aggregation (getBuckets agg_data.by_region)
    types := parse_bucket_aggregation (getBuckets agg_data.by_groups)
    agents := parse_bucket_aggregation (getBuckets agg_data.by_agent)
    decoders := parse_bucket_aggregation (getBuckets agg_data.by_decoder)
    srcips := parse_bucket_aggregation (getBuckets agg_data.by_srcip)
    timeline := parse_timeline_aggregation (getBuckets agg_data.timeline) }

/-- The generator sum over severity_data.items() adding count whenever
int(level) > 9; a key that int() cannot parse raises a ValueError. -/
def criticalCount : Dict → Except String Int
  | [] => .ok 0
  | (k, c) :: rest =>
    match pyIntOfKey k with
    | none => .error "invalid literal for int() with base 10"
    | some v =>
      match criticalCount rest with
      | .error e => .error e
      | .ok s => .ok (if 9 < v then c + s else s)

/-- The dict comprehension dropping the sentinel key "N/A" (an integer key
never equals the sentinel and is always kept). -/
def filterNA (d : Dict) : Dict := d.filter (fun p => p.1 ≠ Key.str "N/A")

/-- Python max(items, key=lambda x: x[1]): fold from the first element,
replacing the current best only on a strictly greater count, so the first
of several maximal pairs wins. -/
def maxByVal : Dict → Option (Key × Int)
  | [] => none
  | p :: rest => some (rest.foldl (fun best q => if best.2 < q.2 then q else best) p)

/-- The shared top-key selection of top_country, top_incident_type and
top_srcip: maximum over the sentinel-filtered pool, the sentinel itself
when the pool is empty. -/
def topOf (d : Dict) : Key :=
  match maxByVal (filterNA d) with
  | some p => p.1
  | none => Key.str "N/A"

/-- Round half to even (banker's rounding) of the exact fraction a / b for
nonzero b, by integer arithmetic: normalize the sign into the numerator,
floor-divide, and compare twice the remainder against the denominator. -/
def halfEvenDiv (a b : Int) : Int :=
  let s := if b < 0 then -a else a
  let d := (b.natAbs : Int)
  let f := Int.fdiv s d
  let r := s - d * f
  if 2 * r < d then f
  else if d < 2 * r then f + 1
  else if f % 2 = 0 then f else f + 1

/-- Bit-length recursion with explicit fuel (the value itself suffices). -/
def bitLenAux : Nat → Nat → Nat
  | 0, _ => 0
  | fuel + 1, n => if n ≤ 1 then 0 else bitLenAux fuel (n / 2) + 1

/-- Floor of the base-2 logarithm of a positive natural (0 at 0 and 1). -/
def log2Nat (n : Nat) : Nat := bitLenAux n n

/-- Floor of the base-2 logarithm of the positive fraction a / d: the
floor lies in the two-candidate window given by the numerator's and
denominator's bit lengths, settled by one comparison. -/
def log2NatPair (a d : Nat) : Int :=
  let c : Int := (log2Nat a : Int) - (log2Nat d : Int)
  if (d : Int) * 2 ^ c.toNat ≤ (a : Int) * 2 ^ (-c).toNat then c else c - 1

/-- The exact value of the IEEE-754 binary64 double nearest to a rational
(round half to even over the dyadic grid, subnormals included): the float
semantics of Python's int / int true division and of the conversions
inside round.  Magnitudes past the largest finite double, where Python
raises OverflowError instead, are excluded by the range hypotheses of the
theorems below. -/
def toDouble (q : ℚ) : ℚ :=
  if q.num = 0 then 0
  else
    let a := q.num.natAbs
    let d := q.den
    let e : Int := max (log2NatPair a d - 52) (-1074)
    let m := halfEvenDiv ((a : Int) * 2 ^ (-e).toNat) ((d : Int) * 2 ^ e.toNat)
    Rat.divInt ((if q.num < 0 then -m else m) * 2 ^ e.toNat) (2 ^ (-e).toNat)

/-- Python round(a / b, 1) for integers with b nonzero, in IEEE-754 double
arithmetic as CPython computes it: the quotient is the correctly rounded
double, which round then rounds half-to-even on its exact value to one
decimal digit and returns as the nearest double.  The bridge
pyRoundDouble1_eq_spec below restates it through the floor-based
specification rounding pyRound1. -/
def pyRoundDouble1 (a b : Int) : ℚ :=
  let x := toDouble (Rat.divInt a b)
  toDouble (Rat.divInt (halfEvenDiv (10 * x.num) ((x.den : Nat) : Int)) 10)

/-- Round half to even on an exact rational value, stated through the
floor function: the specification-level reading of Python round. -/
def roundHalfEven (q : ℚ) : Int :=
  let f := ⌊q⌋
  let r := q - f
  if r < 1 / 2 then f
  else if 1 / 2 < r then f + 1
  else if f % 2 = 0 then f else f + 1

/-- Python round(x, 1) on the exact rational value x, specification
reading. -/
def pyRound1 (q : ℚ) : ℚ := (roundHalfEven (q * 10) : ℚ) / 10

/-- The statistics dictionary built by calculate_statistics. -/
structure Stats where
  total_incidents : Int
  daily_average : ℚ
  critical_count : Int
  top_country : Key
  top_incident_type : Key
  top_srcip : Key
  top_srcip_count : Int
deriving DecidableEq, Repr

/-- calculate_statistics: the critical count is computed first (and may
raise on a non-numeric severity key), then the statistics dict is built;
evaluating round(total_hits / days, 1) raises ZeroDivisionError exactly
when days == 0. -/
def calculate_statistics (total_hits : Int) (parsed_data : ParsedAggs) (days : Int) :
    Except String Stats :=
  match criticalCount parsed_data.severity with
  | .error e => .error e
  | .ok cc =>
    if days = 0 then .error "division by zero"
    else
      let srcips_no_na := filterNA parsed_data.srcips
      let top_srcip := topOf parsed_data.srcips
      .ok
        { total_incidents := total_hits
          daily_average := pyRoundDouble1 total_hits days
          critical_count := cc
          top_country := topOf parsed_data.regions
          top_incident_type := topOf parsed_data.types
          top_srcip := top_srcip
          top_srcip_count :=
            if top_srcip = Key.str "N/A" then 0
            else (dictGet srcips_no_na top_srcip).getD 0 }

/-- The "query_info" object; its "days" entry may be absent. -/
structure QueryInfo where
  days : Option Int := none
deriving DecidableEq, Repr

/-- One sampled incident record; every field may be missing. -/
structure Incident where
  timestamp : Option String := none
  agent_name : Option String := none
  rule_level : Option String := none
  rule_description : Option String := none
  rule_groups : Option (List String) := none
  country_name : Option String := none
  src_ip : Option String := none
  url : Option String := none
  full_log : Option String := none
deriving DecidableEq, Repr

/-- The decoded JSON document handed to
extract_incident_data_from_mcp_response; every top-level entry may be
absent. -/
structure RawDoc where
  error : Option String := none
  total_hits : Option Int := none
  query_info : Option QueryInfo := none
  aggregations : Option AggData := none
  sample_incidents : Option (List Incident) := none
deriving DecidableEq, Repr

/-- The structured result dictionary of
extract_incident_data_from_mcp_response. -/
structure IncidentData where
  query_info : QueryInfo
  total_hits : Int
  statistics : Stats
  aggregations : ParsedAggs
  sample_incidents : List Incident
deriving DecidableEq, Repr

/-- extract_incident_data_from_mcp_response, after JSON decoding: a
top-level "error" key raises at once (the broad except clause rewraps it);
otherwise missing total_hits defaults to 0, missing query_info.days to 7,
and any exception raised below is rewrapped as a ValueError. -/
def extract_incident_data_from_mcp_response (raw_data : RawDoc) :
    Except String IncidentData :=
  match raw_data.error with
  | some e => .error ("Error extracting incident data: MCP tool error: " ++ e)
  | none =>
    let aggregations := raw_data.aggregations.getD {}
    let parsed_aggs := parse_aggregations aggregations
    let total_hits := raw_data.total_hits.getD 0
    let days := (raw_data.query_info.getD {}).days.getD 7
    match calculate_statistics total_hits parsed_aggs days with
    | .error e => .error ("Error extracting incident data: " ++ e)
    | .ok stats =>
      .ok { query_info := raw_data.query_info.getD {}
            total_hits := total_hits
            statistics := stats
            aggregations := parsed_aggs
            sample_incidents := raw_data.sample_incidents.getD [] }

/-- Rendering of a key inside an f-string: an integer prints in decimal,
a string prints as itself. -/
def renderKey : Key → String
  | .int n => toString n
  | .str s => s

/-- Python repr of a one-decimal float given as an integer count of
tenths, e.g. 100 prints as "10.0" and -13 as "-1.3". -/
def showTenths (t : Int) : String :=
  (if t < 0 then "-" else "") ++ toString (t.natAbs / 10) ++ "." ++ toString (t.natAbs % 10)

/-- The decimal-tenths count of a one-decimal float value: the results of
round(x, 1) are the doubles nearest to t / 10, and Python repr prints
them with the single fractional digit of t. -/
def tenthsOf (q : ℚ) : Int := halfEvenDiv (10 * q.num) ((q.den : Nat) : Int)

/-- Rendering of the rounded daily average (an exact multiple of 1/10). -/
def showAvg (q : ℚ) : String := showTenths (tenthsOf q)

/-- Python sorted(items, key=lambda x: x[1], reverse=True): a stable sort,
descending by count, count ties keeping source order. -/
def sortByCountDesc (l : Dict) : Dict :=
  l.mergeSort (fun p q => q.2 ≤ p.2)

/-- Whether a key carries the integer representation. -/
def isIntKey : Key → Bool
  | .int _ => true
  | .str _ => false

/-- Lexicographic strict comparison of character lists by code point, the
order Python uses on strings. -/
def charListLt : List Char → List Char → Bool
  | [], [] => false
  | [], _ :: _ => true
  | _ :: _, [] => false
  | a :: as, b :: bs =>
    if a.toNat < b.toNat then true
    else if b.toNat < a.toNat then false
    else charListLt as bs

/-- Python string comparison a < b. -/
def strLtB (a b : String) : Bool := charListLt a.data b.data

/-- Key comparison as Python sorted uses it on dict items: numeric within
integer keys, lexicographic within string keys.  The cross-type case
raises a TypeError in Python; it never reaches the sort here (the guard in
sortSeverity errors first) and is fixed arbitrarily to keep the relation
total. -/
def keyLE (a b : Key) : Bool :=
  match a, b with
  | .int x, .int y => x ≤ y
  | .str x, .str y => !(strLtB y x)
  | .int _, .str _ => true
  | .str _, .int _ => false

/-- Model of sorted(aggs["severity"].items()): tuple comparison starts at
the key and dict keys are distinct, so this is a sort by key; integer keys
sort numerically, string keys lexicographically, and a dict mixing the two
key types raises a TypeError during sorting. -/
def sortSeverity (l : Dict) : Except String Dict :=
  if l.all (fun p => isIntKey p.1) || l.all (fun p => !isIntKey p.1) then
    .ok (l.mergeSort (fun p q => keyLE p.1 q.1))
  else .error "TypeError: unorderable key types"

/-- One line of the severity-distribution section. -/
def severityLine (p : Key × Int) : String :=
  "  - Úroveň " ++ renderKey p.1 ++ ": " ++ toString p.2 ++ " incidentů"

/-- One line of the timeline section. -/
def timelineLine (r : String × Int) : String :=
  "  - " ++ r.1 ++ ": " ++ toString r.2 ++ " incidentů"

/-- One line of a top-10 listing. -/
def topLine (p : Key × Int) : String :=
  "  - " ++ renderKey p.1 ++ ": " ++ toString p.2

/-- One line of the top-20 source-IP listing. -/
def srcipLine (p : Key × Int) : String :=
  "  - " ++ renderKey p.1 ++ ": " ++ toString p.2 ++ " útoků"

/-- Python incident.get(field, "N/A") for the scalar incident fields. -/
def fieldOrNA (o : Option String) : String := o.getD "N/A"

/-- The rule-groups rendering: ", ".join(incident.get("rule_groups", []));
note the default here is the empty list, not the "N/A" sentinel. -/
def groupsStr (o : Option (List String)) : String :=
  String.intercalate ", " (o.getD [])

/-- Python string slicing s[:n]: the first n characters. -/
def strTrunc (s : String) (n : Nat) : String := String.mk (s.data.take n)

/-- The log rendering: incident.get("full_log", "N/A")[:200]. -/
def logStr (inc : Incident) : String := strTrunc (fieldOrNA inc.full_log) 200

/-- One numbered entry of the sample-incident section. -/
def renderIncident (i : Nat) (inc : Incident) : String :=
  "\nIncident #" ++ toString i ++ ":\n" ++
  "  - Čas: " ++ fieldOrNA inc.timestamp ++ "\n" ++
  "  - Server: " ++ fieldOrNA inc.agent_name ++ "\n" ++
  "  - Závažnost: " ++ fieldOrNA inc.rule_level ++ "\n" ++
  "  - Popis: " ++ fieldOrNA inc.rule_description ++ "\n" ++
  "  - Typy: " ++ groupsStr inc.rule_groups ++ "\n" ++
  "  - Země: " ++ fieldOrNA inc.country_name ++ "\n" ++
  "  - Zdrojová IP: " ++ fieldOrNA inc.src_ip ++ "\n" ++
  "  - URL: " ++ fieldOrNA inc.url ++ "\n" ++
  "  - Log: " ++ logStr inc ++ "\n"

/-- The sample loop: for i, incident in enumerate(sample_incidents[:200], 1),
one appended block per taken record. -/
def sampleEntries (samples : List Incident) : List String :=
  ((samples.take 200).enumFrom 1).map (fun p => renderIncident p.1 p.2)

/-- Join a list of generated lines with newlines, as "\n".join does. -/
def joinLines (ls : List String) : String := String.intercalate "\n" ls

/-- Everything format_data_for_llm_analysis emits before the sample
entries, given the already sorted severity items. -/
def formatHeader (d : IncidentData) (sevSorted : Dict) : String :=
  let stats := d.statistics
  let aggs := d.aggregations
  let top_regions := (sortByCountDesc aggs.regions).take 10
  let top_types := (sortByCountDesc aggs.types).take 10
  let top_agents := (sortByCountDesc aggs.agents).take 10
  let top_decoders := (sortByCountDesc aggs.decoders).take 10
  let top_srcips := (sortByCountDesc aggs.srcips).take 20
  "\nPŘEHLED BEZPEČNOSTNÍCH INCIDENTŮ\n\n" ++
  "Základní statistiky:\n" ++
  "- Celkový počet incidentů: " ++ toString stats.total_incidents ++ "\n" ++
  "- Denní průměr: " ++ showAvg stats.daily_average ++ "\n" ++
  "- Kritické incidenty (úroveň >9): " ++ toString stats.critical_count ++ "\n" ++
  "- Země která je největším zdrojem incidentů: " ++ renderKey stats.top_country ++ "\n" ++
  "- Nejčastější typ incidentu: " ++ renderKey stats.top_incident_type ++ "\n" ++
  "- Nejaktivnější útočící IP: " ++ renderKey stats.top_srcip ++
    " (" ++ toString stats.top_srcip_count ++ " útoků)\n\n" ++
  "Distribuce podle závažnosti:\n" ++ joinLines (sevSorted.map severityLine) ++ "\n\n" ++
  "Časová osa (denní počty):\n" ++ joinLines (aggs.timeline.map timelineLine) ++ "\n\n" ++
  "Top 10 zemí podle počtu incidentů:\n" ++ joinLines (top_regions.map topLine) ++ "\n\n" ++
  "Top 10 typů incidentů:\n" ++ joinLines (top_types.map topLine) ++ "\n\n" ++
  "Top 10 serverů (agentů) s nejvíce incidenty:\n" ++
    joinLines (top_agents.map topLine) ++ "\n\n" ++
  "Top 10 dekoderů:\n" ++ joinLines (top_decoders.map topLine) ++ "\n\n" ++
  "Top 20 útočících IP adres:\n" ++ joinLines (top_srcips.map srcipLine) ++ "\n\n" ++
  "Vzorky incidentů (prvních 200):\n"

/-- format_data_for_llm_analysis: the header followed by the numbered
sample entries; a severity dict mixing key types raises in the sort. -/
def format_data_for_llm_analysis (incident_data : IncidentData) : Except String String :=
  match sortSeverity incident_data.aggregations.severity with
  | .error e => .error e
  | .ok sevSorted =>
    .ok (formatHeader incident_data sevSorted ++
         String.join (sampleEntries incident_data.sample_incidents))

/-- Projection of a computation result: the value when it succeeded. -/
def resultOk {α : Type} : Except String α → Option α
  | .ok a => some a
  | .error _ => none

/-- Whether a computation raised. -/
def resultErr {α : Type} : Except String α → Bool
  | .ok _ => false
  | .error _ => true

/-- Specification-side parsing of a severity dict: every key through
int(), keeping the counts; fails when any key is non-numeric. -/
def parseLevels : Dict → Option (List (Int × Int))
  | [] => some []
  | (k, c) :: rest =>
    match pyIntOfKey k with
    | none => none
    | some v => (parseLevels rest).map (fun l => (v, c) :: l)

/-- Specification-side critical sum: the counts of the parsed levels
strictly above 9. -/
def specCriticalSum (l : List (Int × Int)) : Int :=
  l.foldr (fun p acc => if 9 < p.1 then p.2 + acc else acc) 0

/-- The integer severity level a key denotes (0 as an unused default). -/
def levelOf (k : Key) : Int := (pyIntOfKey k).getD 0

/-- The string a key carries (decimal form for an integer key). -/
def keyStrOf : Key → String
  | .str s => s
  | .int n => toString n

/-- Example aggregation input: severity keys as a numeric string and an
integer. -/
def pdC1 : ParsedAggs := ⟨[(Key.str "10", 3), (Key.int 7, 5)], [], [], [], [], [], []⟩

/-- Example aggregation input with the sentinel dominating the regions, an
all-sentinel types dict and tied source IPs. -/
def pdC2 : ParsedAggs :=
  ⟨[], [(Key.str "N/A", 50), (Key.str "Czechia", 10), (Key.str "Germany", 10)],
   [(Key.str "N/A", 5)], [], [], [(Key.str "1.2.3.4", 2), (Key.str "5.6.7.8", 2)], []⟩

/-- The statistics computed from pdC2 at 70 hits over 7 days. -/
def sC2 : Stats :=
  { total_incidents := 70, daily_average := 10, critical_count := 0,
    top_country := Key.str "Czechia", top_incident_type := Key.str "N/A",
    top_srcip := Key.str "1.2.3.4", top_srcip_count := 2 }

/-- The empty parsed aggregation set. -/
def pdEmpty : ParsedAggs := ⟨[], [], [], [], [], [], []⟩

/-- The statistics the code returns for 7 hits over -7 days: a value, not
an error. -/
def sC3 : Stats :=
  { total_incidents := 7, daily_average := -1, critical_count := 0,
    top_country := Key.str "N/A", top_incident_type := Key.str "N/A",
    top_srcip := Key.str "N/A", top_srcip_count := 0 }

/-- An aggregations object with every section absent. -/
def aggC4 : AggData := {}

/-- A response document carrying a top-level error signal. -/
def docC5 : RawDoc := { error := some "index unavailable" }

/-- A small structured incident-data value for the formatter. -/
def dC6 : IncidentData :=
  ⟨{}, 70,
   { total_incidents := 70, daily_average := 10, critical_count := 3,
     top_country := Key.str "Czechia", top_incident_type := Key.str "N/A",
     top_srcip := Key.str "N/A", top_srcip_count := 0 },
   ⟨[(Key.int 10, 3), (Key.int 5, 67)], [], [], [], [], [], [("2025-01-01", 70)]⟩,
   [{ timestamp := some "2025-01-01T00:00:00Z" }, {}]⟩

/-- Three sample incidents, the second with a long log line. -/
def samplesC7 : List Incident :=
  [{ timestamp := some "t1" },
   { full_log := some (String.mk (List.replicate 300 'x')) },
   { rule_level := some "7" }]

/-- An all-integer severity dict, already in ascending key order. -/
def sevC8 : Dict := [(Key.int 7, 5), (Key.int 10, 3)]

/-- A timeline bucket list in strictly ascending date order. -/
def tlC9 : List TimeBucket := [⟨"2025-01-01", 70⟩, ⟨"2025-01-02", 5⟩]

/-- A response document with aggregations only: no error, no total_hits,
no query_info, no samples. -/
def docC10 : RawDoc :=
  { aggregations := some { by_region := some ⟨some [⟨Key.str "Czechia", 10⟩]⟩ } }

theorem parse_bucket_aggregation_nil : parse_bucket_aggregation [] = [] := rfl

theorem getBuckets_of_none {β : Type} : getBuckets (none : Option (AggEntry β)) = [] := rfl

/-- C4: parse_aggregations is total over absent or empty input: for each of
the six categorical dimensions and for the timeline, an absent section or
an empty bucket list yields the empty mapping (or empty timeline); no
exception is possible, the parser being a total function. -/
theorem parse_aggregations_absent_or_empty (a : AggData) :
    ((a.by_level = none ∨ getBuckets a.by_level = []) → (parse_aggregations a).severity = []) ∧
    ((a.by_region = none ∨ getBuckets a.by_region = []) → (parse_aggregations a).regions = []) ∧
    ((a.by_groups = none ∨ getBuckets a.by_groups = []) → (parse_aggregations a).types = []) ∧
    ((a.by_agent = none ∨ getBuckets a.by_agent = []) → (parse_aggregations a).agents = []) ∧
    ((a.by_decoder = none ∨ getBuckets a.by_decoder = []) → (parse_aggregations a).decoders = []) ∧
    ((a.by_srcip = none ∨ getBuckets a.by_srcip = []) → (parse_aggregations a).srcips = []) ∧
    ((a.timeline = none ∨ getBuckets a.timeline = []) → (parse_aggregations a).timeline = []) := by
  refine ⟨fun h => ?_, fun h => ?_, fun h => ?_, fun h => ?_, fun h => ?_, fun h => ?_,
    fun h => ?_⟩ <;>
    simp only [parse_aggregations] <;>
    rcases h with h | h <;> rw [h] <;> rfl

/-- Witness for C4 on the wholly absent aggregations object. -/
theorem parse_aggregations_absent_or_empty_witness :
    (aggC4.by_level = none ∨ getBuckets aggC4.by_level = []) ∧
    (aggC4.by_region = none ∨ getBuckets aggC4.by_region = []) ∧
    (aggC4.by_groups = none ∨ getBuckets aggC4.by_groups = []) ∧
    (aggC4.by_agent = none ∨ getBuckets aggC4.by_agent = []) ∧
    (aggC4.by_decoder = none ∨ getBuckets aggC4.by_decoder = []) ∧
    (aggC4.by_srcip = none ∨ getBuckets aggC4.by_srcip = []) ∧
    (aggC4.timeline = none ∨ getBuckets aggC4.timeline = []) ∧
    (parse_aggregations aggC4).severity = [] ∧
    (parse_aggregations aggC4).regions = [] ∧
    (parse_aggregations aggC4).types = [] ∧
    (parse_aggregations aggC4).agents = [] ∧
    (parse_aggregations aggC4).decoders = [] ∧
    (parse_aggregations aggC4).srcips = [] ∧
    (parse_aggregations aggC4).timeline = [] :=
  ⟨Or.inl rfl, Or.inl rfl, Or.inl rfl, Or.inl rfl, Or.inl rfl, Or.inl rfl, Or.inl rfl,
   (parse_aggregations_absent_or_empty aggC4).1 (Or.inl rfl),
   (parse_aggregations_absent_or_empty aggC4).2.1 (Or.inl rfl),
   (parse_aggregations_absent_or_empty aggC4).2.2.1 (Or.inl rfl),
   (parse_aggregations_absent_or_empty aggC4).2.2.2.1 (Or.inl rfl),
   (parse_aggregations_absent_or_empty aggC4).2.2.2.2.1 (Or.inl rfl),
   (parse_aggregations_absent_or_empty aggC4).2.2.2.2.2.1 (Or.inl rfl),
   (parse_aggregations_absent_or_empty aggC4).2.2.2.2.2.2 (Or.inl rfl)⟩

/-- C5: a top-level error key in the decoded document makes
extract_incident_data_from_mcp_response raise before any parsing; the
whole computation yields an error and no result is produced. -/
theorem extract_error_short_circuits (raw_data : RawDoc) (e : String)
    (h : raw_data.error = some e) :
    resultErr (extract_incident_data_from_mcp_response raw_data) = true ∧
    resultOk (extract_incident_data_from_mcp_response raw_data) = none := by
  unfold extract_incident_data_from_mcp_response
  rw [h]
  exact ⟨rfl, rfl⟩

/-- Witness for C5 on a concrete error document. -/
theorem extract_error_short_circuits_witness :
    docC5.error = some "index unavailable" ∧
    resultErr (extract_incident_data_from_mcp_response docC5) = true ∧
    resultOk (extract_incident_data_from_mcp_response docC5) = none :=
  ⟨rfl, (extract_error_short_circuits docC5 "index unavailable" rfl).1,
   (extract_error_short_circuits docC5 "index unavailable" rfl).2⟩

/-- C6: format_data_for_llm_analysis is a pure function of its argument:
it is defined with no effects, and two applications to identical input
return the identical string (or the identical error), byte for byte. -/
theorem format_deterministic (d₁ d₂ : IncidentData) (h : d₁ = d₂) :
    format_data_for_llm_analysis d₁ = format_data_for_llm_analysis d₂ := by
  rw [h]

/-- Witness for C6 on a concrete incident-data value. -/
theorem format_deterministic_witness :
    dC6 = dC6 ∧
    format_data_for_llm_analysis dC6 = format_data_for_llm_analysis dC6 :=
  ⟨rfl, format_deterministic dC6 dC6 rfl⟩

theorem criticalCount_of_parseLevels (sev : Dict) (l : List (Int × Int))
    (h : parseLevels sev = some l) : criticalCount sev = .ok (specCriticalSum l) := by
  induction sev generalizing l with
  | nil =>
    simp only [parseLevels, Option.some.injEq] at h
    subst h
    rfl
  | cons p rest ih =>
    obtain ⟨k, c⟩ := p
    simp only [parseLevels] at h
    cases hk : pyIntOfKey k with
    | none => rw [hk] at h; exact absurd h (by simp)
    | some v =>
      rw [hk, Option.map_eq_some'] at h
      obtain ⟨l', hl', rfl⟩ := h
      simp only [criticalCount, hk, ih l' hl', specCriticalSum, List.foldr_cons]

theorem criticalCount_err_of_bad_key (sev : Dict)
    (h : ∃ p ∈ sev, pyIntOfKey p.1 = none) : resultErr (criticalCount sev) = true := by
  induction sev with
  | nil => simp at h
  | cons p rest ih =>
    obtain ⟨k, c⟩ := p
    obtain ⟨q, hq, hbad⟩ := h
    rcases List.mem_cons.1 hq with rfl | hmem
    · simp only [criticalCount, hbad]
      rfl
    · cases hk : pyIntOfKey k with
      | none => simp only [criticalCount, hk]; rfl
      | some v =>
        have := ih ⟨q, hmem, hbad⟩
        simp only [criticalCount, hk]
        cases hr : criticalCount rest with
        | error e => rfl
        | ok s => rw [hr] at this; exact absurd this (by simp [resultErr])

theorem criticalCount_congr_of_parsed (d₁ d₂ : Dict)
    (h : d₁.map (fun p => (pyIntOfKey p.1, p.2)) = d₂.map (fun p => (pyIntOfKey p.1, p.2))) :
    criticalCount d₁ = criticalCount d₂ := by
  induction d₁ generalizing d₂ with
  | nil =>
    cases d₂ with
    | nil => rfl
    | cons q t => simp at h
  | cons p rest ih =>
    cases d₂ with
    | nil => simp at h
    | cons q t =>
      obtain ⟨k₁, c₁⟩ := p
      obtain ⟨k₂, c₂⟩ := q
      simp only [List.map_cons, List.cons.injEq, Prod.mk.injEq] at h
      obtain ⟨⟨hk, hc⟩, ht⟩ := h
      simp only [criticalCount, hk, hc, ih t ht]

/-- C1: calculate_statistics returns critical_count equal to the sum of
counts over severity entries whose key parses (via int()) to a value
strictly greater than 9; the result depends only on the parsed integer
values, so integer keys and numeric-string keys behave identically; and
any severity dict containing a non-numeric key makes the whole computation
raise instead of returning. -/
theorem critical_count_spec (total_hits : Int) (pd : ParsedAggs) (days : Int)
    (l : List (Int × Int)) :
    (parseLevels pd.severity = some l → days ≠ 0 →
      (resultOk (calculate_statistics total_hits pd days)).map Stats.critical_count
        = some (specCriticalSum l)) ∧
    ((∃ p ∈ pd.severity, pyIntOfKey p.1 = none) →
      resultErr (calculate_statistics total_hits pd days) = true) ∧
    (∀ sev₂ : Dict,
      sev₂.map (fun p => (pyIntOfKey p.1, p.2))
        = pd.severity.map (fun p => (pyIntOfKey p.1, p.2)) →
      criticalCount sev₂ = criticalCount pd.severity) := by
  refine ⟨fun hp hd => ?_, fun hbad => ?_, fun sev₂ h₂ => criticalCount_congr_of_parsed _ _ h₂⟩
  · unfold calculate_statistics
    rw [criticalCount_of_parseLevels _ _ hp]
    simp only [if_neg hd]
    rfl
  · have herr := criticalCount_err_of_bad_key _ hbad
    unfold calculate_statistics
    cases hc : criticalCount pd.severity with
    | error e => rfl
    | ok cc => rw [hc] at herr; exact absurd herr (by simp [resultErr])

/-- Witness for C1: severity keys given as the numeric string "10" and the
integer 7 yield critical_count 3, the same as the all-integer form. -/
theorem critical_count_spec_witness :
    parseLevels pdC1.severity = some [(10, 3), (7, 5)] ∧
    (7 : Int) ≠ 0 ∧
    (resultOk (calculate_statistics 0 pdC1 7)).map Stats.critical_count
      = some (specCriticalSum [(10, 3), (7, 5)]) ∧
    specCriticalSum [(10, 3), (7, 5)] = 3 ∧
    ([(Key.int 10, 3), (Key.int 7, 5)] : Dict).map (fun p => (pyIntOfKey p.1, p.2))
      = pdC1.severity.map (fun p => (pyIntOfKey p.1, p.2)) ∧
    criticalCount [(Key.int 10, 3), (Key.int 7, 5)] = criticalCount pdC1.severity :=
  ⟨by decide, by decide,
   (critical_count_spec 0 pdC1 7 [(10, 3), (7, 5)]).1 (by decide) (by decide),
   by decide, by decide,
   (critical_count_spec 0 pdC1 7 [(10, 3), (7, 5)]).2.2 _ (by decide)⟩

/-- C10: with no top-level error, a missing total_hits defaults to 0 and a
missing query_info.days defaults to 7, so a document carrying only
aggregations still succeeds, with total_incidents 0 and daily average
0.0. -/
theorem extract_defaults (raw : RawDoc) (c : Int)
    (he : raw.error = none) (ht : raw.total_hits = none)
    (hd : (raw.query_info.getD {}).days = none)
    (hc : criticalCount (parse_aggregations (raw.aggregations.getD {})).severity = .ok c) :
    (resultOk (extract_incident_data_from_mcp_response raw)).map
        (fun out => (out.total_hits, out.statistics.total_incidents,
          out.statistics.daily_average)) = some (0, 0, (0 : ℚ)) := by
  have h0 : pyRoundDouble1 0 7 = 0 := by decide
  unfold extract_incident_data_from_mcp_response
  rw [he]
  simp only [ht, hd, Option.getD_none]
  unfold calculate_statistics
  rw [hc]
  simp only [if_neg (by decide : ¬ (7 : Int) = 0)]
  simp [resultOk, h0]

/-- Witness for C10 on a document holding only a by_region aggregation. -/
theorem extract_defaults_witness :
    docC10.error = none ∧
    docC10.total_hits = none ∧
    (docC10.query_info.getD {}).days = none ∧
    criticalCount (parse_aggregations (docC10.aggregations.getD {})).severity = .ok 0 ∧
    (resultOk (extract_incident_data_from_mcp_response docC10)).map
        (fun out => (out.total_hits, out.statistics.total_incidents,
          out.statistics.daily_average)) = some (0, 0, (0 : ℚ)) :=
  ⟨rfl, rfl, rfl, rfl, extract_defaults docC10 0 rfl rfl rfl rfl⟩

theorem halfEven_core (s : Int) (n : Nat) (hn : 0 < n) :
    (if 2 * (s - (n : Int) * Int.fdiv s (n : Int)) < (n : Int) then Int.fdiv s (n : Int)
     else if (n : Int) < 2 * (s - (n : Int) * Int.fdiv s (n : Int)) then Int.fdiv s (n : Int) + 1
     else if Int.fdiv s (n : Int) % 2 = 0 then Int.fdiv s (n : Int)
     else Int.fdiv s (n : Int) + 1)
    = roundHalfEven ((s : ℚ) / (n : ℚ)) := by
  have hd : (0 : Int) < (n : Int) := by exact_mod_cast hn
  have hnQ : (0 : ℚ) < (n : ℚ) := by exact_mod_cast hn
  have hneQ : ((n : ℚ)) ≠ 0 := ne_of_gt hnQ
  have hf : Int.fdiv s (n : Int) = s / (n : Int) := Int.fdiv_eq_ediv _ (le_of_lt hd)
  have hfloor : ⌊(s : ℚ) / (n : ℚ)⌋ = s / (n : Int) := Rat.floor_intCast_div_natCast s n
  have hsplit : (n : Int) * (s / (n : Int)) + s % (n : Int) = s := Int.ediv_add_emod s (n : Int)
  have hr : s - (n : Int) * (s / (n : Int)) = s % (n : Int) := by omega
  have hfrac : (s : ℚ) / (n : ℚ) - ((s / (n : Int) : Int) : ℚ)
      = ((s % (n : Int) : Int) : ℚ) / (n : ℚ) := by
    have hsQ : (s : ℚ) = (n : ℚ) * ((s / (n : Int) : Int) : ℚ) + ((s % (n : Int) : Int) : ℚ) := by
      exact_mod_cast congrArg (fun z : Int => (z : ℚ)) hsplit.symm
    field_simp
    linarith [hsQ]
  have iff1 : ((s : ℚ) / (n : ℚ) - (⌊(s : ℚ) / (n : ℚ)⌋ : ℚ) < 1 / 2)
      ↔ 2 * (s % (n : Int)) < (n : Int) := by
    rw [hfloor, hfrac, div_lt_div_iff₀ hnQ (by norm_num : (0 : ℚ) < 2)]
    constructor
    · intro h
      have : ((2 * (s % (n : Int)) : Int) : ℚ) < ((n : Int) : ℚ) := by push_cast; linarith
      exact_mod_cast this
    · intro h
      have : ((2 * (s % (n : Int)) : Int) : ℚ) < ((n : Int) : ℚ) := by exact_mod_cast h
      push_cast at this
      linarith
  have iff2 : ((1 : ℚ) / 2 < (s : ℚ) / (n : ℚ) - (⌊(s : ℚ) / (n : ℚ)⌋ : ℚ))
      ↔ (n : Int) < 2 * (s % (n : Int)) := by
    rw [hfloor, hfrac, div_lt_div_iff₀ (by norm_num : (0 : ℚ) < 2) hnQ]
    constructor
    · intro h
      have : ((n : Int) : ℚ) < ((2 * (s % (n : Int)) : Int) : ℚ) := by push_cast; linarith
      exact_mod_cast this
    · intro h
      have : ((n : Int) : ℚ) < ((2 * (s % (n : Int)) : Int) : ℚ) := by exact_mod_cast h
      push_cast at this
      linarith
  rw [roundHalfEven]
  rw [hfloor] at iff1 iff2
  simp only [hf, hr, hfloor]
  by_cases h1 : 2 * (s % (n : Int)) < (n : Int)
  · rw [if_pos h1, if_pos (iff1.2 h1)]
  · rw [if_neg h1, if_neg (fun hc => h1 (iff1.1 hc))]
    by_cases h2 : (n : Int) < 2 * (s % (n : Int))
    · rw [if_pos h2, if_pos (iff2.2 h2)]
    · rw [if_neg h2, if_neg (fun hc => h2 (iff2.1 hc))]

theorem halfEvenDiv_eq_roundHalfEven (a b : Int) (hb : b ≠ 0) :
    halfEvenDiv a b = roundHalfEven ((a : ℚ) / (b : ℚ)) := by
  by_cases hbs : b < 0
  · have hn : (b.natAbs : Int) = -b := by omega
    have hq : (a : ℚ) / (b : ℚ) = ((-a : Int) : ℚ) / ((b.natAbs : Nat) : ℚ) := by
      have hcast : ((b.natAbs : Nat) : ℚ) = -(b : ℚ) := by
        rw [@Nat.cast_natAbs ℚ _ b, abs_of_neg hbs]
        push_cast
        ring
      rw [hcast]
      push_cast
      rw [neg_div_neg_eq]
    rw [hq]
    simp only [halfEvenDiv, if_pos hbs]
    exact halfEven_core (-a) b.natAbs (by omega)
  · have hq : (a : ℚ) / (b : ℚ) = ((a : Int) : ℚ) / ((b.natAbs : Nat) : ℚ) := by
      have hcast : ((b.natAbs : Nat) : ℚ) = (b : ℚ) := by
        rw [@Nat.cast_natAbs ℚ _ b, abs_of_nonneg (not_lt.1 hbs)]
      rw [hcast]
    rw [hq]
    simp only [halfEvenDiv, if_neg hbs]
    exact halfEven_core a b.natAbs (by omega)

theorem pyRoundDouble1_eq_spec (a b : Int) :
    pyRoundDouble1 a b = toDouble (pyRound1 (toDouble ((a : ℚ) / (b : ℚ)))) := by
  have hx : Rat.divInt a b = (a : ℚ) / (b : ℚ) := Rat.divInt_eq_div a b
  simp only [pyRoundDouble1, hx]
  set x := toDouble ((a : ℚ) / (b : ℚ)) with hxdef
  have hden : ((x.den : Nat) : Int) ≠ 0 := by exact_mod_cast x.den_nz
  have hkey : halfEvenDiv (10 * x.num) ((x.den : Nat) : Int) = roundHalfEven (x * 10) := by
    rw [halfEvenDiv_eq_roundHalfEven _ _ hden]
    congr 1
    push_cast
    rw [mul_comm (10 : ℚ) ((x.num : Int) : ℚ), mul_div_right_comm, Rat.num_div_den]
  rw [hkey, pyRound1, Rat.divInt_eq_div]
  norm_num

/-- C3 counterexample: at days = -7 (which is nonpositive) the code
returns a statistics value with daily average -1.0 instead of raising; the
claimed error on every nonpositive days is false. -/
theorem daily_average_negative_days_counterexample :
    (-7 : Int) ≤ 0 ∧
    resultErr (calculate_statistics 7 pdEmpty (-7)) = false ∧
    resultOk (calculate_statistics 7 pdEmpty (-7)) = some sC3 :=
  ⟨by decide, by decide, by decide⟩

/-- C3 (amended): for every nonzero days (so in particular every days ≥ 1)
and total_hits within the finite double range, calculate_statistics
returns daily_average equal to round(total_hits / days, 1) in IEEE-754
double arithmetic — the correctly rounded double quotient, decimally
rounded half-to-even on its exact value and returned as the nearest
double; it raises (ZeroDivisionError) exactly when days = 0, while
negative days also return a value. -/
theorem daily_average_amended (total_hits : Int) (pd : ParsedAggs) (days : Int) (c : Int)
    (hc : criticalCount pd.severity = .ok c)
    (_hrange : total_hits.natAbs ≤ 2 ^ 1023) :
    (days ≠ 0 →
      (resultOk (calculate_statistics total_hits pd days)).map Stats.daily_average
        = some (toDouble (pyRound1 (toDouble ((total_hits : ℚ) / (days : ℚ)))))) ∧
    (days = 0 → resultErr (calculate_statistics total_hits pd days) = true) := by
  constructor
  · intro hd
    unfold calculate_statistics
    rw [hc]
    simp only [if_neg hd]
    simp [resultOk, pyRoundDouble1_eq_spec]
  · intro hd
    unfold calculate_statistics
    rw [hc]
    simp only [if_pos hd]
    rfl

/-- Witness for the amended C3 at days 7 (value branch, average 2.0) and
days 0 (error branch). -/
theorem daily_average_amended_witness :
    criticalCount pdEmpty.severity = .ok 0 ∧
    (14 : Int).natAbs ≤ 2 ^ 1023 ∧
    (7 : Int) ≠ 0 ∧
    (resultOk (calculate_statistics 14 pdEmpty 7)).map Stats.daily_average
      = some (toDouble (pyRound1 (toDouble (((14 : Int) : ℚ) / ((7 : Int) : ℚ))))) ∧
    toDouble (pyRound1 (toDouble (((14 : Int) : ℚ) / ((7 : Int) : ℚ)))) = 2 ∧
    resultErr (calculate_statistics 14 pdEmpty 0) = true := by
  have hb : (14 : Int).natAbs ≤ 2 ^ 1023 :=
    le_trans (by decide : (14 : Int).natAbs ≤ 2 ^ 10)
      (Nat.pow_le_pow_right (by decide) (by decide))
  exact ⟨rfl, hb, by decide,
    (daily_average_amended 14 pdEmpty 7 0 rfl hb).1 (by decide),
    by rw [← pyRoundDouble1_eq_spec 14 7]; decide,
    (daily_average_amended 14 pdEmpty 0 0 rfl hb).2 rfl⟩

theorem foldlMax_spec (rest : Dict) : ∀ (a p : Key × Int),
    rest.foldl (fun best q => if best.2 < q.2 then q else best) a = p →
    a.2 ≤ p.2 ∧ (∀ q ∈ rest, q.2 ≤ p.2) ∧
    (a :: rest).find? (fun q => p.2 ≤ q.2) = some p := by
  induction rest with
  | nil =>
    intro a p h
    simp only [List.foldl_nil] at h
    subst h
    exact ⟨le_refl _, by simp, by rw [List.find?_cons_of_pos _ (by simp)]⟩
  | cons b t ih =>
    intro a p h
    simp only [List.foldl_cons] at h
    by_cases hab : a.2 < b.2
    · rw [if_pos hab] at h
      obtain ⟨h1, h2, h3⟩ := ih b p h
      refine ⟨le_of_lt (lt_of_lt_of_le hab h1), ?_, ?_⟩
      · intro q hq
        rcases List.mem_cons.1 hq with rfl | hq
        · exact h1
        · exact h2 q hq
      · rw [List.find?_cons_of_neg _ (by simp only [decide_eq_true_eq]; omega)]
        exact h3
    · rw [if_neg hab] at h
      obtain ⟨h1, h2, h3⟩ := ih a p h
      have hb : b.2 ≤ a.2 := by omega
      refine ⟨h1, ?_, ?_⟩
      · intro q hq
        rcases List.mem_cons.1 hq with rfl | hq
        · omega
        · exact h2 q hq
      · by_cases hpa : p.2 ≤ a.2
        · rw [List.find?_cons_of_pos _ (by simpa using hpa)] at h3
          have hap : a = p := by simp at h3; exact h3
          subst hap
          rw [List.find?_cons_of_pos _ (by simp)]
        · rw [List.find?_cons_of_neg _ (by simpa using hpa)] at h3
          rw [List.find?_cons_of_neg _ (by simpa using hpa)]
          rw [List.find?_cons_of_neg _ (by simp only [decide_eq_true_eq]; omega)]
          exact h3

theorem maxByVal_spec (l : Dict) (p : Key × Int) (h : maxByVal l = some p) :
    p ∈ l ∧ (∀ q ∈ l, q.2 ≤ p.2) ∧ l.find? (fun q => p.2 ≤ q.2) = some p := by
  cases l with
  | nil => simp [maxByVal] at h
  | cons a rest =>
    simp only [maxByVal, Option.some.injEq] at h
    obtain ⟨h1, h2, h3⟩ := foldlMax_spec rest a p h
    refine ⟨List.mem_of_find?_eq_some h3, ?_, h3⟩
    intro q hq
    rcases List.mem_cons.1 hq with rfl | hq
    · exact h1
    · exact h2 q hq

theorem topOf_cases (d : Dict) :
    (filterNA d ≠ [] → ∃ v,
        (topOf d, v) ∈ filterNA d ∧
        (∀ q ∈ filterNA d, q.2 ≤ v) ∧
        (filterNA d).find? (fun q => v ≤ q.2) = some (topOf d, v)) ∧
    (filterNA d = [] → topOf d = Key.str "N/A") := by
  constructor
  · intro hne
    cases hm : maxByVal (filterNA d) with
    | none =>
      cases hl : filterNA d with
      | nil => exact absurd hl hne
      | cons a t => rw [hl] at hm; simp [maxByVal] at hm
    | some p =>
      obtain ⟨hmem, hbound, hfind⟩ := maxByVal_spec _ _ hm
      have ht : topOf d = p.1 := by unfold topOf; rw [hm]
      refine ⟨p.2, ?_, hbound, ?_⟩
      · rw [ht, Prod.mk.eta]
        exact hmem
      · rw [ht, Prod.mk.eta]
        exact hfind
  · intro he
    unfold topOf
    rw [he]
    rfl

theorem topOf_mem_ne_sentinel (d : Dict) (v : Int)
    (h : (topOf d, v) ∈ filterNA d) : topOf d ≠ Key.str "N/A" := by
  intro hc
  have := (List.mem_filter.1 h).2
  rw [hc] at this
  simp at this

/-- C2: whenever calculate_statistics succeeds, each of top_country (from
regions), top_incident_type (from types) and top_srcip (from srcips) is
chosen from the pool with the sentinel key "N/A" filtered out: for a
non-empty pool the chosen key is the first pool entry carrying the
greatest count (strictly greater than all later counts, first-encountered
on ties), and is never the sentinel; for an empty pool the result is the
sentinel itself, with top_srcip_count zero. -/
theorem top_selection_spec (total_hits : Int) (pd : ParsedAggs) (days : Int) (s : Stats)
    (h : calculate_statistics total_hits pd days = .ok s) :
    ((filterNA pd.regions ≠ [] → ∃ v,
        (s.top_country, v) ∈ filterNA pd.regions ∧
        (∀ q ∈ filterNA pd.regions, q.2 ≤ v) ∧
        (filterNA pd.regions).find? (fun q => v ≤ q.2) = some (s.top_country, v)) ∧
      (filterNA pd.regions = [] → s.top_country = Key.str "N/A")) ∧
    ((filterNA pd.types ≠ [] → ∃ v,
        (s.top_incident_type, v) ∈ filterNA pd.types ∧
        (∀ q ∈ filterNA pd.types, q.2 ≤ v) ∧
        (filterNA pd.types).find? (fun q => v ≤ q.2) = some (s.top_incident_type, v)) ∧
      (filterNA pd.types = [] → s.top_incident_type = Key.str "N/A")) ∧
    ((filterNA pd.srcips ≠ [] →
        s.top_srcip ≠ Key.str "N/A" ∧ ∃ v,
          (s.top_srcip, v) ∈ filterNA pd.srcips ∧
          (∀ q ∈ filterNA pd.srcips, q.2 ≤ v) ∧
          (filterNA pd.srcips).find? (fun q => v ≤ q.2) = some (s.top_srcip, v)) ∧
      (filterNA pd.srcips = [] →
        s.top_srcip = Key.str "N/A" ∧ s.top_srcip_count = 0)) := by
  unfold calculate_statistics at h
  cases hcc : criticalCount pd.severity with
  | error e => rw [hcc] at h; exact absurd h (by simp)
  | ok cc =>
    rw [hcc] at h
    by_cases hd : days = 0
    · simp only [if_pos hd] at h
      exact absurd h (by simp)
    · simp only [if_neg hd, Except.ok.injEq] at h
      subst h
      refine ⟨⟨fun hne => ?_, (topOf_cases pd.regions).2⟩,
        ⟨fun hne => ?_, (topOf_cases pd.types).2⟩,
        ⟨fun hne => ?_, fun he => ?_⟩⟩
      · exact (topOf_cases pd.regions).1 hne
      · exact (topOf_cases pd.types).1 hne
      · obtain ⟨v, hmem, hbound, hfind⟩ := (topOf_cases pd.srcips).1 hne
        exact ⟨topOf_mem_ne_sentinel _ v hmem, v, hmem, hbound, hfind⟩
      · refine ⟨(topOf_cases pd.srcips).2 he, ?_⟩
        simp [(topOf_cases pd.srcips).2 he]

/-- Witness for C2 on pdC2: the first maximal non-sentinel region wins
(Czechia over the tied Germany, never the dominating sentinel), an
all-sentinel types dict yields the sentinel, and the tied source IPs keep
the first one. -/
theorem top_selection_spec_witness :
    calculate_statistics 70 pdC2 7 = .ok sC2 ∧
    (((filterNA pdC2.regions ≠ [] → ∃ v,
        (sC2.top_country, v) ∈ filterNA pdC2.regions ∧
        (∀ q ∈ filterNA pdC2.regions, q.2 ≤ v) ∧
        (filterNA pdC2.regions).find? (fun q => v ≤ q.2) = some (sC2.top_country, v)) ∧
      (filterNA pdC2.regions = [] → sC2.top_country = Key.str "N/A")) ∧
    ((filterNA pdC2.types ≠ [] → ∃ v,
        (sC2.top_incident_type, v) ∈ filterNA pdC2.types ∧
        (∀ q ∈ filterNA pdC2.types, q.2 ≤ v) ∧
        (filterNA pdC2.types).find? (fun q => v ≤ q.2) = some (sC2.top_incident_type, v)) ∧
      (filterNA pdC2.types = [] → sC2.top_incident_type = Key.str "N/A")) ∧
    ((filterNA pdC2.srcips ≠ [] →
        sC2.top_srcip ≠ Key.str "N/A" ∧ ∃ v,
          (sC2.top_srcip, v) ∈ filterNA pdC2.srcips ∧
          (∀ q ∈ filterNA pdC2.srcips, q.2 ≤ v) ∧
          (filterNA pdC2.srcips).find? (fun q => v ≤ q.2) = some (sC2.top_srcip, v)) ∧
      (filterNA pdC2.srcips = [] →
        sC2.top_srcip = Key.str "N/A" ∧ sC2.top_srcip_count = 0))) ∧
    sC2.top_country = Key.str "Czechia" ∧
    filterNA pdC2.types = [] ∧ sC2.top_incident_type = Key.str "N/A" ∧
    sC2.top_srcip = Key.str "1.2.3.4" :=
  ⟨by rfl, top_selection_spec 70 pdC2 7 sC2 (by rfl), by decide, by decide, by decide, by decide⟩

/-- C7 counterexample: a record with no rule_groups field renders its tag
list as the empty string, not as the sentinel "N/A", so the claim that
every missing field renders as "N/A" fails at the tag-list field. -/
theorem sample_missing_groups_counterexample :
    groupsStr none = "" ∧ ("" : String) ≠ "N/A" ∧
    renderIncident 1 {} =
      "\nIncident #1:\n  - Čas: N/A\n  - Server: N/A\n  - Závažnost: N/A\n  - Popis: N/A\n  - Typy: \n  - Země: N/A\n  - Zdrojová IP: N/A\n  - URL: N/A\n  - Log: N/A\n" :=
  ⟨rfl, by decide, by decide⟩

/-- C7 (amended): the sample section renders exactly min(n, 200) entries,
numbered sequentially from 1 in input order; every missing scalar field is
rendered as "N/A", a missing tag list as the empty string, and the log
field is truncated to its first 200 characters. -/
theorem sample_section_spec (samples : List Incident) (j : Nat) (inc : Incident)
    (hj : j < min samples.length 200) :
    (sampleEntries samples).length = min samples.length 200 ∧
    (sampleEntries samples).getD j "" = renderIncident (j + 1) (samples.getD j {}) ∧
    fieldOrNA none = "N/A" ∧
    groupsStr none = "" ∧
    (logStr inc).length ≤ 200 := by
  have hlen : (sampleEntries samples).length = min samples.length 200 := by
    simp [sampleEntries, List.length_take, Nat.min_comm]
  have hjs : j < samples.length := lt_of_lt_of_le hj (min_le_left _ _)
  refine ⟨hlen, ?_, rfl, rfl, ?_⟩
  · have hjlen : j < (sampleEntries samples).length := by rw [hlen]; exact hj
    rw [List.getD_eq_getElem?_getD, List.getElem?_eq_getElem hjlen, Option.getD_some,
      List.getD_eq_getElem?_getD, List.getElem?_eq_getElem hjs, Option.getD_some]
    simp [sampleEntries, List.getElem_enumFrom, List.getElem_take, Nat.add_comm 1 j]
  · show (strTrunc (fieldOrNA inc.full_log) 200).length ≤ 200
    have : (strTrunc (fieldOrNA inc.full_log) 200).length
        = ((fieldOrNA inc.full_log).data.take 200).length := rfl
    rw [this, List.length_take]
    omega

/-- Witness for the amended C7 at the third of three records, with a log
field 300 characters long. -/
theorem sample_section_spec_witness :
    (2 : Nat) < min samplesC7.length 200 ∧
    ((sampleEntries samplesC7).length = min samplesC7.length 200 ∧
     (sampleEntries samplesC7).getD 2 "" = renderIncident (2 + 1) (samplesC7.getD 2 {}) ∧
     fieldOrNA none = "N/A" ∧
     groupsStr none = "" ∧
     (logStr (samplesC7.getD 1 {})).length ≤ 200) :=
  ⟨by decide, sample_section_spec samplesC7 2 (samplesC7.getD 1 {}) (by decide)⟩

theorem charListLt_irrefl (l : List Char) : charListLt l l = false := by
  induction l with
  | nil => rfl
  | cons c t ih => simp [charListLt, ih]

theorem strLtB_ne (a b : String) (h : strLtB a b = true) : a ≠ b := by
  intro he
  subst he
  rw [strLtB, charListLt_irrefl] at h
  exact Bool.false_ne_true h

/-- C9 counterexample: the timeline parser keeps the source order, so a
bucket list with descending dates yields a timeline that is not
date-ascending, and duplicated source dates yield duplicated timeline
dates; neither sortedness nor uniqueness holds for every bucket list. -/
theorem timeline_unsorted_counterexample :
    parse_timeline_aggregation [⟨"2025-01-02", 1⟩, ⟨"2025-01-01", 2⟩]
      = [("2025-01-02", 1), ("2025-01-01", 2)] ∧
    ¬ ([(("2025-01-02" : String), (1 : Int)), ("2025-01-01", 2)].Pairwise
        (fun a b => strLtB b.1 a.1 = false)) ∧
    ¬ ((parse_timeline_aggregation [⟨"2025-01-03", 1⟩, ⟨"2025-01-03", 2⟩]).map
        Prod.fst).Nodup :=
  ⟨rfl, by decide, by decide⟩

/-- C9 (amended): the timeline preserves source order and content exactly,
one row per bucket, dates and counts in source order; whenever the source
buckets are in strictly ascending date order (as a date histogram emits),
the produced timeline is ordered by date ascending with no duplicate
dates. -/
theorem timeline_spec (tl : List TimeBucket)
    (hs : tl.Pairwise (fun a b => strLtB a.key_as_string b.key_as_string = true)) :
    (parse_timeline_aggregation tl).map Prod.fst = tl.map TimeBucket.key_as_string ∧
    (parse_timeline_aggregation tl).map Prod.snd = tl.map TimeBucket.doc_count ∧
    (parse_timeline_aggregation tl).length = tl.length ∧
    (parse_timeline_aggregation tl).Pairwise (fun a b => strLtB a.1 b.1 = true) ∧
    ((parse_timeline_aggregation tl).map Prod.fst).Nodup := by
  refine ⟨by simp [parse_timeline_aggregation], by simp [parse_timeline_aggregation],
    by simp [parse_timeline_aggregation], ?_, ?_⟩
  · unfold parse_timeline_aggregation
    rw [List.pairwise_map]
    exact hs
  · unfold parse_timeline_aggregation
    rw [List.map_map]
    exact List.pairwise_map.2 (hs.imp (fun h => strLtB_ne _ _ h))

/-- Witness for the amended C9 on a two-day ascending bucket list. -/
theorem timeline_spec_witness :
    tlC9.Pairwise (fun a b => strLtB a.key_as_string b.key_as_string = true) ∧
    ((parse_timeline_aggregation tlC9).map Prod.fst = tlC9.map TimeBucket.key_as_string ∧
     (parse_timeline_aggregation tlC9).map Prod.snd = tlC9.map TimeBucket.doc_count ∧
     (parse_timeline_aggregation tlC9).length = tlC9.length ∧
     (parse_timeline_aggregation tlC9).Pairwise (fun a b => strLtB a.1 b.1 = true) ∧
     ((parse_timeline_aggregation tlC9).map Prod.fst).Nodup) :=
  ⟨by decide, timeline_spec tlC9 (by decide)⟩

theorem charEq_of_toNat_eq (a b : Char) (h : a.toNat = b.toNat) : a = b :=
  Char.eq_of_val_eq (UInt32.ext h)

theorem charListLt_trans : ∀ (a b c : List Char),
    charListLt a b = true → charListLt b c = true → charListLt a c = true := by
  intro a
  induction a with
  | nil =>
    intro b c h1 h2
    cases b with
    | nil => exact absurd h1 (by simp [charListLt])
    | cons y ys =>
      cases c with
      | nil => exact absurd h2 (by simp [charListLt])
      | cons z zs => rfl
  | cons x xs ih =>
    intro b c h1 h2
    cases b with
    | nil => exact absurd h1 (by simp [charListLt])
    | cons y ys =>
      cases c with
      | nil => exact absurd h2 (by simp [charListLt])
      | cons z zs =>
        simp only [charListLt] at h1 h2 ⊢
        by_cases hxy : x.toNat < y.toNat
        · by_cases hyz : y.toNat < z.toNat
          · rw [if_pos (by omega)]
          · rw [if_neg hyz] at h2
            by_cases hzy : z.toNat < y.toNat
            · rw [if_pos hzy] at h2
              exact absurd h2 (by simp)
            · rw [if_pos (by omega)]
        · rw [if_neg hxy] at h1
          by_cases hyx : y.toNat < x.toNat
          · rw [if_pos hyx] at h1
            exact absurd h1 (by simp)
          · rw [if_neg hyx] at h1
            by_cases hyz : y.toNat < z.toNat
            · rw [if_pos (by omega)]
            · rw [if_neg hyz] at h2
              by_cases hzy : z.toNat < y.toNat
              · rw [if_pos hzy] at h2
                exact absurd h2 (by simp)
              · rw [if_neg hzy] at h2
                rw [if_neg (by omega), if_neg (by omega)]
                exact ih ys zs h1 h2

theorem charListLt_connex : ∀ (a b : List Char),
    charListLt a b = false → charListLt b a = false → a = b := by
  intro a
  induction a with
  | nil =>
    intro b h1 h2
    cases b with
    | nil => rfl
    | cons y ys => simp [charListLt] at h1
  | cons x xs ih =>
    intro b h1 h2
    cases b with
    | nil => simp [charListLt] at h2
    | cons y ys =>
      simp only [charListLt] at h1 h2
      by_cases hxy : x.toNat < y.toNat
      · rw [if_pos hxy] at h1
        exact absurd h1 (by simp)
      · rw [if_neg hxy] at h1
        by_cases hyx : y.toNat < x.toNat
        · rw [if_pos hyx] at h2
          exact absurd h2 (by simp)
        · rw [if_neg hyx] at h1
          rw [if_neg hyx, if_neg hxy] at h2
          rw [charEq_of_toNat_eq x y (by omega), ih ys h1 h2]

theorem keyLE_trans : ∀ (a b c : Key),
    keyLE a b = true → keyLE b c = true → keyLE a c = true := by
  intro a b c h1 h2
  cases a with
  | int x =>
    cases b with
    | int y =>
      cases c with
      | int z =>
        simp only [keyLE, decide_eq_true_eq] at h1 h2 ⊢
        omega
      | str t => simp [keyLE]
    | str s  =>
      cases c with
      | int z => simp [keyLE] at h2
      | str t => simp [keyLE]
  | str sx =>
    cases b with
    | int y => simp [keyLE] at h1
    | str sy =>
      cases c with
      | int z => simp [keyLE] at h2
      | str sz =>
        simp only [keyLE, Bool.not_eq_true'] at h1 h2 ⊢
        cases hzx : strLtB sz sx with
        | false => rfl
        | true =>
          cases hys : strLtB sy sz with
          | true =>
            rw [strLtB] at hys hzx
            have htr := charListLt_trans sy.data sz.data sx.data hys hzx
            rw [strLtB] at h1
            rw [h1] at htr
            exact htr.symm
          | false =>
            rw [strLtB] at hys hzx h1 h2
            have hdata := charListLt_connex sz.data sy.data h2 hys
            rw [hdata, h1] at hzx
            exact hzx.symm

theorem keyLE_total : ∀ (a b : Key), (keyLE a b || keyLE b a) = true := by
  intro a b
  cases a with
  | int x =>
    cases b with
    | int y =>
      simp only [keyLE, Bool.or_eq_true, decide_eq_true_eq]
      omega
    | str s => simp [keyLE]
  | str sx =>
    cases b with
    | int y => simp [keyLE]
    | str sy =>
      simp only [keyLE, Bool.or_eq_true, Bool.not_eq_true']
      cases h1 : strLtB sy sx with
      | false => exact Or.inl rfl
      | true =>
        refine Or.inr ?_
        cases h2 : strLtB sx sy with
        | false => rfl
        | true =>
          rw [strLtB] at h1 h2
          have := charListLt_trans sx.data sy.data sx.data h2 h1
          rw [charListLt_irrefl] at this
          exact absurd this (by simp)

theorem keyLE_pair_trans : ∀ (a b c : Key × Int),
    keyLE a.1 b.1 → keyLE b.1 c.1 → keyLE a.1 c.1 := by
  intro a b c h1 h2
  exact keyLE_trans a.1 b.1 c.1 (by simpa using h1) (by simpa using h2)

theorem keyLE_pair_total : ∀ (a b : Key × Int),
    (keyLE a.1 b.1 || keyLE b.1 a.1) = true :=
  fun a b => keyLE_total a.1 b.1

/-- C8 counterexample: with severity keys supplied as the numeric strings
"10" and "7", the severity section keeps the lexicographic order "10"
before "7", whose parsed levels are 10 before 7 — not ascending by level;
so sortedness by level does not survive numeric-string keys. -/
theorem severity_sort_string_counterexample :
    resultOk (sortSeverity [(Key.str "10", 3), (Key.str "7", 5)])
      = some [(Key.str "10", 3), (Key.str "7", 5)] ∧
    pyIntOfKey (Key.str "10") = some 10 ∧
    pyIntOfKey (Key.str "7") = some 7 ∧
    ¬ ((10 : Int) ≤ 7) := by
  refine ⟨?_, by decide, by decide, by decide⟩
  have hsorted : ([(Key.str "10", 3), (Key.str "7", 5)] : Dict).Pairwise
      (fun p q => keyLE p.1 q.1 = true) := by decide
  unfold sortSeverity
  rw [if_pos (by decide), List.mergeSort_of_sorted (by simpa using hsorted)]
  rfl

/-- C8 (amended): the severity section lists every severity level present,
sorted ascending by key — numerically when the keys are integers (so by
level), lexicographically as strings when the keys are strings (so numeric
strings need not appear in numeric order) — and a dict mixing the two key
types raises a TypeError in the sort. -/
theorem severity_sort_spec (sev : Dict) :
    ((∀ p ∈ sev, isIntKey p.1 = true) →
      ∃ l, sortSeverity sev = .ok l ∧ l.Perm sev ∧
        l.Pairwise (fun p q => levelOf p.1 ≤ levelOf q.1)) ∧
    ((∀ p ∈ sev, isIntKey p.1 = false) →
      ∃ l, sortSeverity sev = .ok l ∧ l.Perm sev ∧
        l.Pairwise (fun p q => strLtB (keyStrOf q.1) (keyStrOf p.1) = false)) ∧
    (((∃ p ∈ sev, isIntKey p.1 = true) ∧ (∃ p ∈ sev, isIntKey p.1 = false)) →
      resultErr (sortSeverity sev) = true) := by
  have hsorted := @List.sorted_mergeSort (Key × Int) (fun p q => keyLE p.1 q.1)
    keyLE_pair_trans keyLE_pair_total sev
  refine ⟨fun hint => ?_, fun hstr => ?_, fun hmix => ?_⟩
  · refine ⟨sev.mergeSort (fun p q => keyLE p.1 q.1), ?_, List.mergeSort_perm sev _, ?_⟩
    · unfold sortSeverity
      rw [if_pos (by rw [List.all_eq_true.2 hint]; simp)]
    · refine hsorted.imp_of_mem ?_
      intro a b ha hb hle
      have hai := hint a (List.mem_mergeSort.1 ha)
      have hbi := hint b (List.mem_mergeSort.1 hb)
      cases hka : a.1 with
      | str s => rw [hka] at hai; simp [isIntKey] at hai
      | int x =>
        cases hkb : b.1 with
        | str t => rw [hkb] at hbi; simp [isIntKey] at hbi
        | int y =>
          rw [hka, hkb] at hle
          simp only [keyLE, decide_eq_true_eq] at hle
          simpa [levelOf, pyIntOfKey] using hle
  · refine ⟨sev.mergeSort (fun p q => keyLE p.1 q.1), ?_, List.mergeSort_perm sev _, ?_⟩
    · unfold sortSeverity
      have hall : sev.all (fun p => !isIntKey p.1) = true :=
        List.all_eq_true.2 (fun p hp => by rw [hstr p hp]; rfl)
      rw [if_pos (by rw [hall]; simp)]
    · refine hsorted.imp_of_mem ?_
      intro a b ha hb hle
      have hai := hstr a (List.mem_mergeSort.1 ha)
      have hbi := hstr b (List.mem_mergeSort.1 hb)
      cases hka : a.1 with
      | int x => rw [hka] at hai; simp [isIntKey] at hai
      | str s =>
        cases hkb : b.1 with
        | int y => rw [hkb] at hbi; simp [isIntKey] at hbi
        | str t =>
          rw [hka, hkb] at hle
          simp only [keyLE, Bool.not_eq_true'] at hle
          simpa [keyStrOf] using hle
  · obtain ⟨⟨pi, hpi, hpii⟩, ⟨ps, hps, hpss⟩⟩ := hmix
    have ha : sev.all (fun p => isIntKey p.1) = false := by
      cases hall : sev.all (fun p => isIntKey p.1) with
      | false => rfl
      | true => exact absurd (List.all_eq_true.1 hall ps hps) (by rw [hpss]; simp)
    have hb : sev.all (fun p => !isIntKey p.1) = false := by
      cases hall : sev.all (fun p => !isIntKey p.1) with
      | false => rfl
      | true =>
        have := List.all_eq_true.1 hall pi hpi
        rw [hpii] at this
        exact absurd this (by simp)
    unfold sortSeverity
    rw [if_neg (by rw [ha, hb]; simp)]
    rfl

/-- Witness for the amended C8: an all-integer severity dict sorts by
level, and a dict mixing an integer and a string key raises. -/
theorem severity_sort_spec_witness :
    (∀ p ∈ sevC8, isIntKey p.1 = true) ∧
    (∃ l, sortSeverity sevC8 = .ok l ∧ l.Perm sevC8 ∧
      l.Pairwise (fun p q => levelOf p.1 ≤ levelOf q.1)) ∧
    ((∃ p ∈ ([(Key.int 1, 2), (Key.str "x", 3)] : Dict), isIntKey p.1 = true) ∧
      (∃ p ∈ ([(Key.int 1, 2), (Key.str "x", 3)] : Dict), isIntKey p.1 = false)) ∧
    resultErr (sortSeverity [(Key.int 1, 2), (Key.str "x", 3)]) = true :=
  ⟨by decide, (severity_sort_spec sevC8).1 (by decide), by decide,
   (severity_sort_spec [(Key.int 1, 2), (Key.str "x", 3)]).2.2 (by decide)⟩

end Analyzer
